import Mathlib

/-
Shallow embedding of src/vscode/src/local-context/local-embeddings.ts
(class LocalEmbeddingsController).

The controller is modelled as a state machine.  The mutable fields of the
class become the structure St.  The external world (the cody-engine worker
process spawned by spawnBfg, and the first workspace folder) is modelled as
an oracle structure Worker.  Every public operation becomes a function
Worker -> args -> St -> StepRes that returns the result, the final state,
and a trace of the observable effects it performed, in order: spawning the
worker process, issuing a JSON-RPC request, firing the changeEmitter, and
firing the statusEmitter.  Each trace entry is paired with the controller
state at the moment the effect happens, because event observers run
synchronously and read that state.

The TypeScript runs on a single-threaded event loop, so async bodies
interleave only at await points; every function below sequences its source
exactly in the order the event loop executes it.  Promises are collapsed to
their eventual outcome (Except), which is faithful because the memoized
service promise (field: service) is assigned synchronously before any
suspension in getService.
-/

namespace LocalEmbeddings

/-- One embeddings search result returned by the worker (the controller never
inspects its contents). -/
structure EmbeddingsSearchResult where
  content : String
deriving Repr, DecidableEq

/-- Result set of an embeddings/query request. -/
structure QueryResultSet where
  results : List EmbeddingsSearchResult
deriving Repr, DecidableEq

/-- The environment as an oracle: the responses the cody-engine worker gives
to each request, whether spawning it succeeds, and the first workspace
folder path (vscode.workspace.workspaceFolders), if any. -/
structure Worker where
  spawnResult : Except String Unit
  loadResp : String → Except String Bool
  queryResp : String → Except String QueryResultSet
  indexResp : String → Except String Unit
  workspaceFolder : Option String

/-- The cached field lastRepo: the last repository path a load was attempted
for, and whether the worker reported an index available. -/
structure RepoState where
  path : String
  loadResult : Bool
deriving Repr, DecidableEq

/-- Controller state: the mutable fields of LocalEmbeddingsController.
service is the memoized spawn attempt (None until getService first runs,
then Some of the attempt outcome); statusBar models whether the status bar
item currently exists. -/
structure St where
  service : Option (Except String Unit)
  serviceStarted : Bool
  accessToken : Option String
  endpointIsDotcom : Bool
  statusBar : Bool
  lastRepo : Option RepoState
  pathBeingIndexed : Option String

/-- Field values set by the constructor. -/
def initialState : St :=
  ⟨none, false, none, false, false, none, none⟩

/-- A JSON-RPC request sent to the worker, by method name and payload. -/
inductive Req where
  | setToken (token : String)
  | index (path : String) (model : String) (dimension : Nat)
  | load (path : String)
  | query (q : String)
deriving Repr, DecidableEq

/-- An observable effect of a controller operation. -/
inductive Effect where
  | spawn
  | request (r : Req)
  | fireChange
  | fireStatus
deriving Repr, DecidableEq

/-- Effect trace; each effect is paired with the controller state at the
moment the effect happens. -/
abbrev Trace := List (Effect × St)

/-- Outcome of running one operation: result, final state, effect trace. -/
structure StepRes (α : Type) where
  res : α
  st : St
  tr : Trace

/-- Method spawnAndBindService (lines 92-161): spawn the worker, register
the notification handler, push the held token if any, mark the service
started and fire the change event.  A spawn failure is captured and the
attempt rejects. -/
def spawnAndBindService (w : Worker) (s : St) : StepRes (Except String Unit) :=
  match w.spawnResult with
  | .error e => ⟨.error e, s, [(.spawn, s)]⟩
  | .ok _ =>
    let t1 : Trace :=
      match s.accessToken with
      | some tok => [(.spawn, s), (.request (.setToken tok), s)]
      | none => [(.spawn, s)]
    let s1 := { s with serviceStarted := true }
    ⟨.ok (), s1, t1 ++ [(.fireChange, s1)]⟩

/-- Method getService (lines 85-90): memoized single-flight access to the
worker session.  The first call stores the attempt itself in the service
field; later calls return the stored attempt unchanged. -/
def getService (w : Worker) (s : St) : StepRes (Except String Unit) :=
  match s.service with
  | some r => ⟨r, s, []⟩
  | none =>
    let r := spawnAndBindService w s
    ⟨r.res, { r.st with service := some r.res }, r.tr⟩

/-- Method eagerlyLoad (lines 286-293): issue an embeddings/load request,
overwrite the lastRepo cache with the reply, fire the status event and
return the reply.  A getService or request failure rejects without touching
the cache. -/
def eagerlyLoad (w : Worker) (p : String) (s : St) : StepRes (Except String Bool) :=
  let g := getService w s
  match g.res with
  | .error e => ⟨.error e, g.st, g.tr⟩
  | .ok _ =>
    match w.loadResp p with
    | .error e => ⟨.error e, g.st, g.tr ++ [(.request (.load p), g.st)]⟩
    | .ok b =>
      let s2 := { g.st with lastRepo := some ⟨p, b⟩ }
      ⟨.ok b, s2, g.tr ++ [(.request (.load p), g.st), (.fireStatus, s2)]⟩

/-- Tail of method load (lines 271-283) for a fresh path: before the service
has started, kick off getService in a fire-and-forget task that swallows its
own failure, and reply false; once started, delegate to eagerlyLoad. -/
def loadFresh (w : Worker) (repoPath : String) (s : St) : StepRes (Except String Bool) :=
  if s.serviceStarted = false then
    let g := getService w s
    ⟨.ok false, g.st, g.tr⟩
  else eagerlyLoad w repoPath s

/-- Method load (lines 257-284).  Reply false when the endpoint is not
dotcom or no path is given (a missing uri or an empty fsPath); reply the
cached result when the path equals the cached path; otherwise loadFresh. -/
def load (w : Worker) (repoUri : Option String) (s : St) : StepRes (Except String Bool) :=
  if s.endpointIsDotcom = false then ⟨.ok false, s, []⟩
  else
    match repoUri with
    | none => ⟨.ok false, s, []⟩
    | some repoPath =>
      if repoPath = "" then ⟨.ok false, s, []⟩
      else
        match s.lastRepo with
        | some lr =>
          if lr.path = repoPath then ⟨.ok lr.loadResult, s, []⟩
          else loadFresh w repoPath s
        | none => loadFresh w repoPath s

/-- Method start (lines 53-60): await getService (a spawn failure surfaces
to the caller), then eagerly load the first workspace folder if present. -/
def start (w : Worker) (s : St) : StepRes (Except String Unit) :=
  let g := getService w s
  match g.res with
  | .error e => ⟨.error e, g.st, g.tr⟩
  | .ok _ =>
    match w.workspaceFolder with
    | none => ⟨.ok (), g.st, g.tr⟩
    | some p =>
      let r := eagerlyLoad w p g.st
      match r.res with
      | .error e => ⟨.error e, r.st, g.tr ++ r.tr⟩
      | .ok _ => ⟨.ok (), r.st, g.tr ++ r.tr⟩

/-- DOTCOM_URL.toString() from the shared environments module. -/
def dotcomUrl : String := "https://sourcegraph.com/"

/-- JS strict equality between the token argument (string or null) and the
accessToken field (string or undefined): two absent values are never
strictly equal because null and undefined differ. -/
def strictEqTok : Option String → Option String → Bool
  | some a, some b => a == b
  | _, _ => false

/-- Method setAccessToken (lines 62-83).  When the dotcom flag changes,
fire the status event and, if the service started, the change event, before
storing the new flag.  When the token is strictly unchanged, stop.
Otherwise store the token (an empty token is stored as undefined) and, when
a truthy token was given and the service has started, forward it to the
worker with a fire-and-forget embeddings/set-token request. -/
def setAccessToken (w : Worker) (serverEndpoint : String) (token : Option String)
    (s : St) : StepRes (Except String Unit) :=
  let endpointIsDotcom : Bool := serverEndpoint == dotcomUrl
  let t1 : Trace :=
    if endpointIsDotcom ≠ s.endpointIsDotcom then
      (Effect.fireStatus, s) :: (if s.serviceStarted then [(Effect.fireChange, s)] else [])
    else []
  let s1 := { s with endpointIsDotcom := endpointIsDotcom }
  if strictEqTok token s1.accessToken then ⟨.ok (), s1, t1⟩
  else
    let newTok : Option String :=
      match token with
      | some t => if t = "" then none else some t
      | none => none
    let s2 := { s1 with accessToken := newTok }
    match token with
    | some t =>
      if (t != "") && s2.serviceStarted then
        let g := getService w s2
        match g.res with
        | .error e => ⟨.error e, g.st, t1 ++ g.tr⟩
        | .ok _ => ⟨.ok (), g.st, t1 ++ g.tr ++ [(.request (.setToken t), g.st)]⟩
      else ⟨.ok (), s2, t1⟩
    | none => ⟨.ok (), s2, t1⟩

/-- Embedding model constant from method index (line 242). -/
def indexModel : String := "openai/text-embedding-ada-002"

/-- Method index (lines 231-255): unless the endpoint is dotcom, a repo path
is cached (truthy, so nonempty) and its cached loadResult is false, do
nothing.  Otherwise issue embeddings/index; on success record the path as
being indexed, create the status bar and fire the status event; any failure
is captured and swallowed. -/
def index (w : Worker) (s : St) : StepRes Unit :=
  match s.lastRepo with
  | none => ⟨(), s, []⟩
  | some lr =>
    if s.endpointIsDotcom && (lr.path != "") && !lr.loadResult then
      let g := getService w s
      match g.res with
      | .error _ => ⟨(), g.st, g.tr⟩
      | .ok _ =>
        match w.indexResp lr.path with
        | .error _ => ⟨(), g.st, g.tr ++ [(.request (.index lr.path indexModel 1536), g.st)]⟩
        | .ok _ =>
          let s2 := { g.st with pathBeingIndexed := some lr.path, statusBar := true }
          ⟨(), s2, g.tr ++ [(.request (.index lr.path indexModel 1536), g.st),
            (.fireStatus, s2)]⟩
    else ⟨(), s, []⟩

/-- Method query (lines 295-300): an empty result set when the endpoint is
not dotcom, otherwise proxy embeddings/query through the session. -/
def query (w : Worker) (q : String) (s : St) : StepRes (Except String QueryResultSet) :=
  if s.endpointIsDotcom = false then ⟨.ok ⟨[]⟩, s, []⟩
  else
    let g := getService w s
    match g.res with
    | .error e => ⟨.error e, g.st, g.tr⟩
    | .ok _ =>
      match w.queryResp q with
      | .error e => ⟨.error e, g.st, g.tr ++ [(.request (.query q), g.st)]⟩
      | .ok r => ⟨.ok r, g.st, g.tr ++ [(.request (.query q), g.st)]⟩

/-- Method getContext (lines 303-312): return the query results, and an
empty list when the query rejects. -/
def getContext (w : Worker) (q : String) (s : St) : StepRes (List EmbeddingsSearchResult) :=
  let r := query w q s
  match r.res with
  | .ok rs => ⟨rs.results, r.st, r.tr⟩
  | .error _ => ⟨[], r.st, r.tr⟩

/-- Guard at line 129: the Done handler re-loads only when a path is being
indexed and it matches the cached path or no repo is cached yet. -/
def doneGuard (s : St) : Option String :=
  match s.pathBeingIndexed, s.lastRepo with
  | some p, none => some p
  | some p, some lr => if lr.path = p then some p else none
  | none, _ => none

/-- The embeddings/progress handler for the terminal Done payload (lines
104-106 and 119-139), sequenced as the event loop runs it: nothing happens
without a status bar; otherwise the status bar is hidden, and when the
doneGuard passes the async task at lines 131-135 starts, running eagerlyLoad
synchronously through getService and then suspending on the load request;
the handler then clears pathBeingIndexed and fires the status event, and the
task continuation afterwards stores the load reply in lastRepo, fires the
status event (inside eagerlyLoad) and then the change event. -/
def onDone (w : Worker) (s : St) : StepRes Unit :=
  if s.statusBar = false then ⟨(), s, []⟩
  else
    let sBar := { s with statusBar := false }
    match doneGuard s with
    | none =>
      let s2 := { sBar with pathBeingIndexed := none }
      ⟨(), s2, [(.fireStatus, s2)]⟩
    | some p =>
      let g := getService w sBar
      let s2 := { g.st with pathBeingIndexed := none }
      match g.res with
      | .error _ => ⟨(), s2, g.tr ++ [(.fireStatus, s2)]⟩
      | .ok _ =>
        match w.loadResp p with
        | .error _ => ⟨(), s2, g.tr ++ [(.fireStatus, s2), (.request (.load p), s2)]⟩
        | .ok b =>
          let s3 := { s2 with lastRepo := some ⟨p, b⟩ }
          ⟨(), s3, g.tr ++ [(.fireStatus, s2), (.request (.load p), s2),
            (.fireStatus, s3), (.fireChange, s3)]⟩

/-- The provider state in a status group. -/
inductive ContextState where
  | indeterminate
  | indexing
  | ready
  | unconsented
deriving Repr, DecidableEq

/-- A provider descriptor in a status group. -/
structure ContextProvider where
  kind : String
  type : String
  state : ContextState
deriving Repr, DecidableEq

/-- A named status group. -/
structure ContextGroup where
  name : String
  providers : List ContextProvider
deriving Repr, DecidableEq

/-- JS truthy-or chain a || b for strings, where the empty string is falsy. -/
def orElseStr (a : Option String) (b : String) : String :=
  match a with
  | some x => if x = "" then b else x
  | none => b

/-- The path shown by the status getter (line 178): the cached repo path,
else the first workspace folder, else a placeholder. -/
def statusPath (w : Worker) (s : St) : String :=
  orElseStr (s.lastRepo.map RepoState.path)
    (orElseStr w.workspaceFolder ("(No workspace loaded)"))

/-- Getter status (lines 171-227): the decision table over the controller
state. -/
def statusOf (w : Worker) (s : St) : List ContextGroup :=
  if s.endpointIsDotcom = false then []
  else
    let path := statusPath w s
    match s.lastRepo with
    | none => [⟨path, [⟨"embeddings", "local", ContextState.indeterminate⟩]⟩]
    | some lr =>
      if s.pathBeingIndexed = some path then
        [⟨path, [⟨"embeddings", "local", ContextState.indexing⟩]⟩]
      else if lr.loadResult then
        [⟨path, [⟨"embeddings", "local", ContextState.ready⟩]⟩]
      else
        [⟨path, [⟨"embeddings", "local", ContextState.unconsented⟩]⟩]

/-- A public operation on the controller, for whole-trace statements. -/
inductive Op where
  | startOp
  | setAccessTokenOp (serverEndpoint : String) (token : Option String)
  | indexOp
  | loadOp (repoUri : Option String)
  | queryOp (q : String)
  | getContextOp (q : String)
  | doneOp

/-- Run one operation, keeping the state and trace. -/
def step (w : Worker) (s : St) : Op → St × Trace
  | .startOp => let r := start w s; (r.st, r.tr)
  | .setAccessTokenOp e t => let r := setAccessToken w e t s; (r.st, r.tr)
  | .indexOp => let r := index w s; (r.st, r.tr)
  | .loadOp u => let r := load w u s; (r.st, r.tr)
  | .queryOp q => let r := query w q s; (r.st, r.tr)
  | .getContextOp q => let r := getContext w q s; (r.st, r.tr)
  | .doneOp => let r := onDone w s; (r.st, r.tr)

/-- Run a sequence of operations, concatenating the traces. -/
def runOps (w : Worker) : St → List Op → St × Trace
  | s, [] => (s, [])
  | s, op :: ops =>
    let p := step w s op
    let rest := runOps w p.1 ops
    (rest.1, p.2 ++ rest.2)

/-- Whether a trace entry is a worker-process spawn. -/
def isSpawn : Effect × St → Bool
  | (.spawn, _) => true
  | _ => false

/-- Number of worker-process spawns in a trace. -/
def spawnCount (t : Trace) : Nat := t.countP isSpawn

/-- Whether a trace entry is an embeddings/load request. -/
def isLoadReq : Effect × St → Bool
  | (.request (.load _), _) => true
  | _ => false

/-- Number of embeddings/load requests in a trace. -/
def loadReqCount (t : Trace) : Nat := t.countP isLoadReq

/-- Whether a trace entry fires the status emitter. -/
def isFireStatus : Effect × St → Bool
  | (.fireStatus, _) => true
  | _ => false

/-- Number of status-changed events in a trace. -/
def fireStatusCount (t : Trace) : Nat := t.countP isFireStatus

/-- Every change event in the trace happens at a state with no outstanding
indexing job. -/
def changeEventSeesNoIndexing (t : Trace) : Prop :=
  ∀ pr ∈ t, pr.1 = Effect.fireChange → pr.2.pathBeingIndexed = none

/-- Sample worker that spawns and answers every request successfully and
reports an index available for every path. -/
def okWorker : Worker :=
  ⟨.ok (), fun _ => .ok true, fun _ => .ok ⟨[]⟩, fun _ => .ok (), some ("/repo")⟩

/-- Sample worker whose spawn and every request fail. -/
def failWorker : Worker :=
  ⟨.error ("spawn failed"), fun _ => .error ("load failed"),
   fun _ => .error ("query failed"), fun _ => .error ("index failed"), some ("/repo")⟩

/-- Controller state with a bound session on the dotcom endpoint. -/
def boundState : St :=
  { initialState with
      service := some (.ok ())
      serviceStarted := true
      endpointIsDotcom := true }

/-- Bound dotcom state with an unconsented cached repo currently being
indexed. -/
def indexingState : St :=
  { boundState with
      statusBar := true
      pathBeingIndexed := some ("/repo")
      lastRepo := some ⟨"/repo", false⟩ }

/-- Dotcom state before the session has started. -/
def dotcomState : St :=
  { initialState with endpointIsDotcom := true }

@[simp] lemma isSpawn_spawn (s : St) : isSpawn (Effect.spawn, s) = true := rfl

@[simp] lemma isSpawn_request (r : Req) (s : St) : isSpawn (Effect.request r, s) = false := rfl

@[simp] lemma isSpawn_fireChange (s : St) : isSpawn (Effect.fireChange, s) = false := rfl

@[simp] lemma isSpawn_fireStatus (s : St) : isSpawn (Effect.fireStatus, s) = false := rfl

@[simp] lemma spawnCount_nil : spawnCount [] = 0 := rfl

@[simp] lemma spawnCount_cons (pr : Effect × St) (t : Trace) :
    spawnCount (pr :: t) = spawnCount t + (if isSpawn pr then 1 else 0) := by
  simp [spawnCount, List.countP_cons]

@[simp] lemma spawnCount_append (a b : Trace) :
    spawnCount (a ++ b) = spawnCount a + spawnCount b := by
  simp [spawnCount, List.countP_append]

@[simp] lemma isLoadReq_load (p : String) (s : St) :
    isLoadReq (Effect.request (Req.load p), s) = true := rfl

@[simp] lemma isLoadReq_setToken (t : String) (s : St) :
    isLoadReq (Effect.request (Req.setToken t), s) = false := rfl

@[simp] lemma isLoadReq_index (p m : String) (d : Nat) (s : St) :
    isLoadReq (Effect.request (Req.index p m d), s) = false := rfl

@[simp] lemma isLoadReq_query (q : String) (s : St) :
    isLoadReq (Effect.request (Req.query q), s) = false := rfl

@[simp] lemma isLoadReq_spawn (s : St) : isLoadReq (Effect.spawn, s) = false := rfl

@[simp] lemma isLoadReq_fireChange (s : St) : isLoadReq (Effect.fireChange, s) = false := rfl

@[simp] lemma isLoadReq_fireStatus (s : St) : isLoadReq (Effect.fireStatus, s) = false := rfl

@[simp] lemma loadReqCount_nil : loadReqCount [] = 0 := rfl

@[simp] lemma loadReqCount_cons (pr : Effect × St) (t : Trace) :
    loadReqCount (pr :: t) = loadReqCount t + (if isLoadReq pr then 1 else 0) := by
  simp [loadReqCount, List.countP_cons]

@[simp] lemma loadReqCount_append (a b : Trace) :
    loadReqCount (a ++ b) = loadReqCount a + loadReqCount b := by
  simp [loadReqCount, List.countP_append]

@[simp] lemma isFireStatus_fireStatus (s : St) : isFireStatus (Effect.fireStatus, s) = true := rfl

@[simp] lemma isFireStatus_fireChange (s : St) : isFireStatus (Effect.fireChange, s) = false := rfl

@[simp] lemma isFireStatus_spawn (s : St) : isFireStatus (Effect.spawn, s) = false := rfl

@[simp] lemma isFireStatus_request (r : Req) (s : St) :
    isFireStatus (Effect.request r, s) = false := rfl

@[simp] lemma fireStatusCount_nil : fireStatusCount [] = 0 := rfl

@[simp] lemma fireStatusCount_cons (pr : Effect × St) (t : Trace) :
    fireStatusCount (pr :: t) = fireStatusCount t + (if isFireStatus pr then 1 else 0) := by
  simp [fireStatusCount, List.countP_cons]

@[simp] lemma fireStatusCount_append (a b : Trace) :
    fireStatusCount (a ++ b) = fireStatusCount a + fireStatusCount b := by
  simp [fireStatusCount, List.countP_append]

/-- The single-flight invariant of one computation step: a stored spawn
attempt is kept unchanged and no new spawn happens; from an empty cell, the
step either leaves the cell empty with no spawn, or fills it with at most
one spawn. -/
def svcInv (s s' : St) (t : Trace) : Prop :=
  (∀ r, s.service = some r → (s'.service = some r ∧ spawnCount t = 0)) ∧
  (s.service = none →
    (s'.service = none ∧ spawnCount t = 0) ∨
    (s'.service.isSome = true ∧ spawnCount t ≤ 1))

lemma svcInv_same {s s' : St} {t : Trace} (hs : s'.service = s.service)
    (h : spawnCount t = 0) : svcInv s s' t := by
  constructor
  · intro r hr
    exact ⟨hs.trans hr, h⟩
  · intro hn
    exact Or.inl ⟨hs.trans hn, h⟩

lemma svcInv_refl (s : St) : svcInv s s [] := svcInv_same rfl rfl

lemma svcInv_trans {s1 s2 s3 : St} {t1 t2 : Trace}
    (h12 : svcInv s1 s2 t1) (h23 : svcInv s2 s3 t2) : svcInv s1 s3 (t1 ++ t2) := by
  constructor
  · intro r hr
    obtain ⟨h2, c1⟩ := h12.1 r hr
    obtain ⟨h3, c2⟩ := h23.1 r h2
    refine ⟨h3, ?_⟩
    simp [c1, c2]
  · intro hn
    rcases h12.2 hn with ⟨h2, c1⟩ | ⟨h2, c1⟩
    · rcases h23.2 h2 with ⟨h3, c2⟩ | ⟨h3, c2⟩
      · exact Or.inl ⟨h3, by simp [c1, c2]⟩
      · refine Or.inr ⟨h3, ?_⟩
        simp [c1]
        exact c2
    · obtain ⟨r, hr⟩ := Option.isSome_iff_exists.mp h2
      obtain ⟨h3, c2⟩ := h23.1 r hr
      refine Or.inr ⟨by simp [h3], ?_⟩
      simp [c2]
      exact c1

lemma svcInv_congr_left {s s0 s' : St} {t : Trace} (h : s.service = s0.service)
    (hi : svcInv s0 s' t) : svcInv s s' t := by
  constructor
  · intro r hr
    exact hi.1 r (h ▸ hr)
  · intro hn
    exact hi.2 (h ▸ hn)

lemma svcInv_append_right {s s' s2 : St} {t e : Trace} (hi : svcInv s s' t)
    (hs : s2.service = s'.service) (he : spawnCount e = 0) : svcInv s s2 (t ++ e) := by
  constructor
  · intro r hr
    obtain ⟨h2, c1⟩ := hi.1 r hr
    exact ⟨hs.trans h2, by simp [c1, he]⟩
  · intro hn
    rcases hi.2 hn with ⟨h2, c1⟩ | ⟨h2, c1⟩
    · exact Or.inl ⟨hs.trans h2, by simp [c1, he]⟩
    · refine Or.inr ⟨by rw [hs]; exact h2, ?_⟩
      simp [he]
      exact c1

lemma svcInv_prepend_left {s s' : St} {e t : Trace} (he : spawnCount e = 0)
    (hi : svcInv s s' t) : svcInv s s' (e ++ t) := by
  constructor
  · intro r hr
    obtain ⟨h2, c1⟩ := hi.1 r hr
    exact ⟨h2, by simp [c1, he]⟩
  · intro hn
    rcases hi.2 hn with ⟨h2, c1⟩ | ⟨h2, c1⟩
    · exact Or.inl ⟨h2, by simp [c1, he]⟩
    · refine Or.inr ⟨h2, ?_⟩
      simp [he]
      exact c1

lemma getService_some (w : Worker) {s : St} {r : Except String Unit}
    (h : s.service = some r) : getService w s = ⟨r, s, []⟩ := by
  simp [getService, h]

lemma getService_none_fills (w : Worker) {s : St} (h : s.service = none) :
    (getService w s).st.service = some (getService w s).res ∧
    spawnCount (getService w s).tr = 1 := by
  cases hw : w.spawnResult <;> cases ht : s.accessToken <;>
    simp [getService, spawnAndBindService, h, hw, ht]

lemma getService_inv (w : Worker) (s : St) :
    svcInv s (getService w s).st (getService w s).tr := by
  cases h : s.service with
  | some r =>
    rw [getService_some w h]
    exact svcInv_same rfl rfl
  | none =>
    obtain ⟨hst, hc⟩ := getService_none_fills w h
    constructor
    · intro r hr
      rw [h] at hr
      cases hr
    · intro _
      refine Or.inr ⟨by simp [hst], by omega⟩

lemma getService_inv_from (w : Worker) (s0 s : St) (h : s.service = s0.service) :
    svcInv s0 (getService w s).st (getService w s).tr :=
  svcInv_congr_left h.symm (getService_inv w s)

lemma eagerlyLoad_inv (w : Worker) (p : String) (s : St) :
    svcInv s (eagerlyLoad w p s).st (eagerlyLoad w p s).tr := by
  simp only [eagerlyLoad]
  split
  · exact getService_inv w s
  · split
    · exact svcInv_append_right (getService_inv w s) rfl (by simp)
    · exact svcInv_append_right (getService_inv w s) rfl (by simp)

lemma loadFresh_inv (w : Worker) (p : String) (s : St) :
    svcInv s (loadFresh w p s).st (loadFresh w p s).tr := by
  simp only [loadFresh]
  split
  · exact getService_inv w s
  · exact eagerlyLoad_inv w p s

lemma load_inv (w : Worker) (u : Option String) (s : St) :
    svcInv s (load w u s).st (load w u s).tr := by
  simp only [load]
  repeat' split
  all_goals first
    | exact svcInv_refl s
    | exact loadFresh_inv w _ s

lemma start_inv (w : Worker) (s : St) :
    svcInv s (start w s).st (start w s).tr := by
  simp only [start]
  repeat' split
  all_goals first
    | exact getService_inv w s
    | exact svcInv_trans (getService_inv w s) (eagerlyLoad_inv w _ (getService w s).st)

lemma setAccessToken_inv (w : Worker) (e : String) (tok : Option String) (s : St) :
    svcInv s (setAccessToken w e tok s).st (setAccessToken w e tok s).tr := by
  simp only [setAccessToken]
  repeat' split
  all_goals first
    | exact svcInv_same rfl (by simp)
    | exact svcInv_prepend_left (by simp) (getService_inv_from w s _ rfl)
    | (rw [List.append_assoc]
       exact svcInv_prepend_left (by simp)
         (svcInv_append_right (getService_inv_from w s _ rfl) rfl (by simp)))

lemma index_inv (w : Worker) (s : St) :
    svcInv s (index w s).st (index w s).tr := by
  simp only [index]
  repeat' split
  all_goals first
    | exact svcInv_refl s
    | exact getService_inv w s
    | exact svcInv_append_right (getService_inv w s) rfl (by simp)

lemma query_inv (w : Worker) (q : String) (s : St) :
    svcInv s (query w q s).st (query w q s).tr := by
  simp only [query]
  repeat' split
  all_goals first
    | exact svcInv_refl s
    | exact getService_inv w s
    | exact svcInv_append_right (getService_inv w s) rfl (by simp)

lemma getContext_inv (w : Worker) (q : String) (s : St) :
    svcInv s (getContext w q s).st (getContext w q s).tr := by
  simp only [getContext]
  split
  · exact query_inv w q s
  · exact query_inv w q s

lemma onDone_inv (w : Worker) (s : St) :
    svcInv s (onDone w s).st (onDone w s).tr := by
  simp only [onDone]
  repeat' split
  all_goals first
    | exact svcInv_refl s
    | exact svcInv_same rfl rfl
    | exact svcInv_append_right (getService_inv_from w s _ rfl) rfl (by simp)

lemma step_inv (w : Worker) (s : St) (op : Op) :
    svcInv s (step w s op).1 (step w s op).2 := by
  cases op with
  | startOp => exact start_inv w s
  | setAccessTokenOp e t => exact setAccessToken_inv w e t s
  | indexOp => exact index_inv w s
  | loadOp u => exact load_inv w u s
  | queryOp q => exact query_inv w q s
  | getContextOp q => exact getContext_inv w q s
  | doneOp => exact onDone_inv w s

lemma runOps_inv (w : Worker) (ops : List Op) :
    ∀ s : St, svcInv s (runOps w s ops).1 (runOps w s ops).2 := by
  induction ops with
  | nil =>
    intro s
    exact svcInv_refl s
  | cons op ops ih =>
    intro s
    exact svcInv_trans (step_inv w s op) (ih (step w s op).1)

/-- Claim C1: over every sequence of controller operations (the concurrent
interleavings of the single-threaded event loop), the worker process is
spawned at most once per controller lifetime; a call that finds a memoized
attempt returns that same attempt without spawning, and the first call
stores the in-flight attempt itself as the memoized value. -/
theorem spawn_single_flight (w : Worker) (ops : List Op) :
    spawnCount (runOps w initialState ops).2 ≤ 1 ∧
    (∀ (s : St) (r : Except String Unit), s.service = some r →
      getService w s = ⟨r, s, []⟩) ∧
    (∀ s : St, s.service = none →
      (getService w s).st.service = some (getService w s).res ∧
      spawnCount (getService w s).tr = 1) := by
  refine ⟨?_, fun s r h => getService_some w h, fun s h => getService_none_fills w h⟩
  rcases (runOps_inv w ops initialState).2 rfl with ⟨_, hc⟩ | ⟨_, hc⟩
  · omega
  · exact hc

/-- Witness for C1 at a concrete operation sequence and concrete states. -/
theorem spawn_single_flight_witness :
    spawnCount (runOps okWorker initialState
      [Op.startOp, Op.loadOp (some ("/repo")), Op.queryOp ("q")]).2 ≤ 1 ∧
    getService okWorker boundState = ⟨Except.ok (), boundState, []⟩ ∧
    ((getService okWorker initialState).st.service =
        some (getService okWorker initialState).res ∧
      spawnCount (getService okWorker initialState).tr = 1) :=
  ⟨(spawn_single_flight okWorker
      [Op.startOp, Op.loadOp (some ("/repo")), Op.queryOp ("q")]).1,
   (spawn_single_flight okWorker []).2.1 boundState (Except.ok ()) rfl,
   (spawn_single_flight okWorker []).2.2 initialState rfl⟩

/-- Claim C10: when the endpoint is not dotcom, query replies with an empty
result set, leaves the state unchanged (so no session is created) and
performs no effect at all (no worker contact). -/
theorem query_non_primary_empty (w : Worker) (q : String) (s : St)
    (h : s.endpointIsDotcom = false) :
    query w q s = ⟨Except.ok ⟨[]⟩, s, []⟩ := by
  simp [query, h]

/-- Witness for C10 on the failing worker from the initial state. -/
theorem query_non_primary_empty_witness :
    query failWorker ("anything") initialState = ⟨Except.ok ⟨[]⟩, initialState, []⟩ :=
  query_non_primary_empty failWorker ("anything") initialState rfl

/-- Claim C8: getContext swallows failures into an empty list: when the
worker query response is an error, or the memoized session attempt failed,
or the session must be created and spawning fails, the result is []. -/
theorem getContext_swallows_errors (w : Worker) (q : String) (s : St) :
    (∀ e, w.queryResp q = Except.error e → (getContext w q s).res = []) ∧
    (∀ e, s.service = some (Except.error e) → (getContext w q s).res = []) ∧
    (∀ e, s.service = none → w.spawnResult = Except.error e →
      (getContext w q s).res = []) := by
  refine ⟨?_, ?_, ?_⟩
  · intro e he
    by_cases hd : s.endpointIsDotcom = false
    · simp [getContext, query, hd]
    · cases hg : (getService w s).res with
      | error e2 => simp [getContext, query, hd, hg]
      | ok u => simp [getContext, query, hd, hg, he]
  · intro e he
    by_cases hd : s.endpointIsDotcom = false
    · simp [getContext, query, hd]
    · simp [getContext, query, hd, getService_some w he]
  · intro e hn he
    by_cases hd : s.endpointIsDotcom = false
    · simp [getContext, query, hd]
    · simp [getContext, query, getService, spawnAndBindService, hd, hn, he]

/-- Witness for C8 on the failing worker. -/
theorem getContext_swallows_errors_witness :
    (getContext failWorker ("q") boundState).res = [] ∧
    (getContext failWorker ("q")
      { boundState with service := some (Except.error ("spawn failed")) }).res = [] ∧
    (getContext failWorker ("q") dotcomState).res = [] :=
  ⟨(getContext_swallows_errors failWorker ("q") boundState).1 ("query failed") rfl,
   (getContext_swallows_errors failWorker ("q")
      { boundState with service := some (Except.error ("spawn failed")) }).2.1
      ("spawn failed") rfl,
   (getContext_swallows_errors failWorker ("q") dotcomState).2.2
      ("spawn failed") rfl rfl⟩

/-- Claim C4: load fails closed.  It returns false with no effect when the
endpoint is not dotcom or no path is given; called before the service has
started it returns false while itself triggering session creation (exactly
one spawn when no attempt was memoized), and it swallows a session-creation
failure, returning false for every worker, including one whose spawn
fails. -/
theorem load_fails_closed (w : Worker) (s : St) :
    (s.endpointIsDotcom = false → ∀ u, load w u s = ⟨Except.ok false, s, []⟩) ∧
    (load w none s = ⟨Except.ok false, s, []⟩) ∧
    (load w (some ("")) s = ⟨Except.ok false, s, []⟩) ∧
    (∀ p, s.endpointIsDotcom = true → p ≠ "" →
      s.lastRepo.map RepoState.path ≠ some p → s.serviceStarted = false →
      ((load w (some p) s).res = Except.ok false ∧
       (s.service = none → spawnCount (load w (some p) s).tr = 1))) := by
  refine ⟨?_, ?_, ?_, ?_⟩
  · intro h u
    cases u <;> simp [load, h]
  · by_cases h : s.endpointIsDotcom = false <;> simp [load, h]
  · by_cases h : s.endpointIsDotcom = false <;> simp [load, h]
  · intro p hdot hp hmiss hstart
    have hload : load w (some p) s = loadFresh w p s := by
      cases hl : s.lastRepo with
      | none => simp [load, hdot, hp, hl]
      | some lr =>
        have hne : ¬(lr.path = p) := by
          intro hcontra
          apply hmiss
          simp [hl, hcontra]
        simp [load, hdot, hp, hl, hne]
    have hlf : loadFresh w p s =
        ⟨Except.ok false, (getService w s).st, (getService w s).tr⟩ := by
      simp [loadFresh, hstart]
    rw [hload, hlf]
    exact ⟨rfl, fun hn => (getService_none_fills w hn).2⟩

/-- Witness for C4 on the failing worker in the dotcom state with no session
started: the result is still false and exactly one spawn is attempted. -/
theorem load_fails_closed_witness :
    (load failWorker (some ("/other")) { dotcomState with endpointIsDotcom := false } =
      ⟨Except.ok false, { dotcomState with endpointIsDotcom := false }, []⟩) ∧
    (load failWorker none dotcomState = ⟨Except.ok false, dotcomState, []⟩) ∧
    (load failWorker (some ("")) dotcomState = ⟨Except.ok false, dotcomState, []⟩) ∧
    ((load failWorker (some ("/repo")) dotcomState).res = Except.ok false ∧
      spawnCount (load failWorker (some ("/repo")) dotcomState).tr = 1) := by
  refine ⟨(load_fails_closed failWorker _).1 rfl (some ("/other")),
    (load_fails_closed failWorker dotcomState).2.1,
    (load_fails_closed failWorker dotcomState).2.2.1, ?_, ?_⟩
  · exact ((load_fails_closed failWorker dotcomState).2.2.2 ("/repo") rfl
      (by decide) (by decide) rfl).1
  · exact ((load_fails_closed failWorker dotcomState).2.2.2 ("/repo") rfl
      (by decide) (by decide) rfl).2 rfl

/-- Claim C3: load(P) twice in a row with no intervening Done notification
issues exactly one embeddings/load round-trip; the second call returns the
cached loadResult for P with no effect at all (no worker contact). -/
theorem load_second_call_cached (w : Worker) (s : St) (p : String) (b : Bool)
    (hdot : s.endpointIsDotcom = true) (hstart : s.serviceStarted = true)
    (hsvc : s.service = some (Except.ok ())) (hp : p ≠ "")
    (hmiss : s.lastRepo.map RepoState.path ≠ some p)
    (hload : w.loadResp p = Except.ok b) :
    (load w (some p) s).res = Except.ok b ∧
    (load w (some p) (load w (some p) s).st).res = Except.ok b ∧
    (load w (some p) (load w (some p) s).st).tr = [] ∧
    loadReqCount ((load w (some p) s).tr ++ (load w (some p) (load w (some p) s).st).tr)
      = 1 := by
  have h1 : load w (some p) s =
      ⟨Except.ok b, { s with lastRepo := some ⟨p, b⟩ },
        [(Effect.request (Req.load p), s),
         (Effect.fireStatus, { s with lastRepo := some ⟨p, b⟩ })]⟩ := by
    have hg : getService w s = ⟨Except.ok (), s, []⟩ := getService_some w hsvc
    cases hl : s.lastRepo with
    | none => simp [load, loadFresh, eagerlyLoad, hdot, hp, hl, hstart, hg, hload]
    | some lr =>
      have hne : ¬(lr.path = p) := by
        intro hcontra
        apply hmiss
        simp [hl, hcontra]
      simp [load, loadFresh, eagerlyLoad, hdot, hp, hl, hne, hstart, hg, hload]
  have h2 : load w (some p) { s with lastRepo := some (⟨p, b⟩ : RepoState) } =
      ⟨Except.ok b, { s with lastRepo := some ⟨p, b⟩ }, []⟩ := by
    simp [load, hdot, hp]
  rw [h1]
  simp only [h2]
  simp

/-- Witness for C3 from the bound dotcom state. -/
theorem load_second_call_cached_witness :
    (load okWorker (some ("/repo")) boundState).res = Except.ok true ∧
    (load okWorker (some ("/repo")) (load okWorker (some ("/repo")) boundState).st).res
      = Except.ok true ∧
    (load okWorker (some ("/repo")) (load okWorker (some ("/repo")) boundState).st).tr
      = [] ∧
    loadReqCount ((load okWorker (some ("/repo")) boundState).tr ++
      (load okWorker (some ("/repo")) (load okWorker (some ("/repo")) boundState).st).tr)
      = 1 :=
  load_second_call_cached okWorker boundState ("/repo") true rfl rfl rfl
    (by decide) (by decide) rfl

/-- The status path equals the cached repo path when one is cached and its
path is nonempty (the JS truthy-or chain at line 178). -/
lemma statusPath_cached (w : Worker) {s : St} {lr : RepoState}
    (h : s.lastRepo = some lr) (hne : lr.path ≠ "") : statusPath w s = lr.path := by
  simp [statusPath, orElseStr, h, hne]

/-- Claim C5: the status getter implements the decision table in order:
non-dotcom yields no groups; no cached repo yields indeterminate; a cached
repo whose path is being indexed yields indexing; otherwise a true cached
loadResult yields ready; otherwise unconsented. -/
theorem status_decision_table (w : Worker) (s : St) :
    (s.endpointIsDotcom = false → statusOf w s = []) ∧
    (s.endpointIsDotcom = true → s.lastRepo = none →
      statusOf w s =
        [⟨statusPath w s, [⟨"embeddings", "local", ContextState.indeterminate⟩]⟩]) ∧
    (∀ lr, s.endpointIsDotcom = true → s.lastRepo = some lr → lr.path ≠ "" →
      ((s.pathBeingIndexed = some lr.path →
          statusOf w s = [⟨lr.path, [⟨"embeddings", "local", ContextState.indexing⟩]⟩]) ∧
       (s.pathBeingIndexed ≠ some lr.path → lr.loadResult = true →
          statusOf w s = [⟨lr.path, [⟨"embeddings", "local", ContextState.ready⟩]⟩]) ∧
       (s.pathBeingIndexed ≠ some lr.path → lr.loadResult = false →
          statusOf w s =
            [⟨lr.path, [⟨"embeddings", "local", ContextState.unconsented⟩]⟩]))) := by
  refine ⟨fun h => by simp [statusOf, h], fun hd hn => by simp [statusOf, hd, hn], ?_⟩
  intro lr hd hsome hne
  have hpath : statusPath w s = lr.path := statusPath_cached w hsome hne
  refine ⟨fun hpi => ?_, fun hpi hres => ?_, fun hpi hres => ?_⟩
  · simp [statusOf, hd, hsome, hpath, hpi]
  · simp [statusOf, hd, hsome, hpath, hpi, hres]
  · simp [statusOf, hd, hsome, hpath, hpi, hres]

/-- Witness for C5 exercising every row of the decision table. -/
theorem status_decision_table_witness :
    statusOf okWorker initialState = [] ∧
    statusOf okWorker dotcomState =
      [⟨"/repo", [⟨"embeddings", "local", ContextState.indeterminate⟩]⟩] ∧
    statusOf okWorker indexingState =
      [⟨"/repo", [⟨"embeddings", "local", ContextState.indexing⟩]⟩] ∧
    statusOf okWorker { indexingState with pathBeingIndexed := none, lastRepo := some ⟨"/repo", true⟩ } =
      [⟨"/repo", [⟨"embeddings", "local", ContextState.ready⟩]⟩] ∧
    statusOf okWorker { indexingState with pathBeingIndexed := none } =
      [⟨"/repo", [⟨"embeddings", "local", ContextState.unconsented⟩]⟩] := by
  refine ⟨(status_decision_table okWorker initialState).1 rfl, ?_, ?_, ?_, ?_⟩
  · have h := (status_decision_table okWorker dotcomState).2.1 rfl rfl
    simpa [statusPath, orElseStr, dotcomState, initialState, okWorker] using h
  · exact ((status_decision_table okWorker indexingState).2.2
      ⟨"/repo", false⟩ rfl rfl (by decide)).1 rfl
  · exact ((status_decision_table okWorker
      { indexingState with pathBeingIndexed := none, lastRepo := some ⟨"/repo", true⟩ }).2.2
      ⟨"/repo", true⟩ rfl rfl (by decide)).2.1 (by decide) rfl
  · exact ((status_decision_table okWorker
      { indexingState with pathBeingIndexed := none }).2.2
      ⟨"/repo", false⟩ rfl rfl (by decide)).2.2 (by decide) rfl

/-- Claim C6: index is a no-op, sending nothing and changing nothing,
unless the endpoint is dotcom, a repo path is cached and truthy, and the
cached loadResult is false; in particular a true loadResult sends no second
embeddings/index request. -/
theorem index_noop_unless_unconsented (w : Worker) (s : St) :
    (s.endpointIsDotcom = false → index w s = ⟨(), s, []⟩) ∧
    (s.lastRepo = none → index w s = ⟨(), s, []⟩) ∧
    (∀ lr, s.lastRepo = some lr → lr.path = "" → index w s = ⟨(), s, []⟩) ∧
    (∀ lr, s.lastRepo = some lr → lr.loadResult = true → index w s = ⟨(), s, []⟩) := by
  refine ⟨?_, ?_, ?_, ?_⟩
  · intro h
    cases hl : s.lastRepo with
    | none => simp [index, hl]
    | some lr => simp [index, hl, h]
  · intro h
    simp [index, h]
  · intro lr hl hp
    simp [index, hl, hp]
  · intro lr hl hres
    simp [index, hl, hres]

/-- Witness for C6: with a ready cached repo, index does nothing. -/
theorem index_noop_unless_unconsented_witness :
    index okWorker { boundState with lastRepo := some ⟨"/repo", true⟩ } =
      ⟨(), { boundState with lastRepo := some ⟨"/repo", true⟩ }, []⟩ :=
  (index_noop_unless_unconsented okWorker
    { boundState with lastRepo := some ⟨"/repo", true⟩ }).2.2.2
    ⟨"/repo", true⟩ rfl rfl

/-- Claim C7: setCredential invariant: a changed truthy token while the
session is bound is forwarded to the worker with embeddings/set-token, and
a backend-flag change with a strictly unchanged token fires exactly one
status-changed event. -/
theorem setAccessToken_contract (w : Worker) (s : St) :
    (∀ e t, s.serviceStarted = true → s.service = some (Except.ok ()) → t ≠ "" →
      strictEqTok (some t) s.accessToken = false →
      ∃ st, (Effect.request (Req.setToken t), st) ∈ (setAccessToken w e (some t) s).tr) ∧
    (∀ e tok, (e == dotcomUrl) ≠ s.endpointIsDotcom →
      strictEqTok tok s.accessToken = true →
      fireStatusCount (setAccessToken w e tok s).tr = 1) := by
  constructor
  · intro e t hstart hsvc ht hne
    have hbne : (t != "") = true := bne_iff_ne.mpr ht
    have hcond : ((t != "") && s.serviceStarted) = true := by rw [hbne, hstart]; rfl
    have hg : getService w { s with endpointIsDotcom := (e == dotcomUrl), accessToken := some t } = ⟨Except.ok (), { s with endpointIsDotcom := (e == dotcomUrl), accessToken := some t }, []⟩ :=
      getService_some w hsvc
    refine ⟨{ s with endpointIsDotcom := (e == dotcomUrl), accessToken := some t }, ?_⟩
    simp [setAccessToken, hne, ht, hcond, hg]
  · intro e tok hflag heq
    simp [setAccessToken, heq, hflag]
    split <;> simp

/-- Witness for C7: changing the token on a bound session records the
set-token request; flipping the flag with an unchanged token fires exactly
one status event. -/
theorem setAccessToken_contract_witness :
    (∃ st, (Effect.request (Req.setToken ("tok")), st) ∈
      (setAccessToken okWorker dotcomUrl (some ("tok")) boundState).tr) ∧
    fireStatusCount (setAccessToken okWorker dotcomUrl (some ("old"))
      { initialState with accessToken := some ("old") }).tr = 1 :=
  ⟨(setAccessToken_contract okWorker boundState).1 dotcomUrl ("tok") rfl rfl
      (by decide) (by decide),
   (setAccessToken_contract okWorker
      { initialState with accessToken := some ("old") }).2 dotcomUrl (some ("old"))
      (by decide) (by decide)⟩

/-- Claim C2: on the terminal Done notification with a visible progress
indicator and a bound session, when the indexed path matches the cached path
or no path is cached, the controller re-issues a load for that path (with
the reply refreshing lastRepo) and then fires the change event;
pathBeingIndexed is cleared; and the status event fires on every Done with a
visible indicator, independently of the change event. -/
theorem done_reloads_and_fires (w : Worker) (s : St) (p : String) (b : Bool)
    (hbar : s.statusBar = true) (hsvc : s.service = some (Except.ok ()))
    (hidx : s.pathBeingIndexed = some p)
    (hmatch : s.lastRepo = none ∨ ∃ lr, s.lastRepo = some lr ∧ lr.path = p)
    (hload : w.loadResp p = Except.ok b) :
    (onDone w s =
      ⟨(), { s with statusBar := false, pathBeingIndexed := none, lastRepo := some ⟨p, b⟩ },
        [(Effect.fireStatus, { s with statusBar := false, pathBeingIndexed := none }),
         (Effect.request (Req.load p), { s with statusBar := false, pathBeingIndexed := none }),
         (Effect.fireStatus, { s with statusBar := false, pathBeingIndexed := none, lastRepo := some ⟨p, b⟩ }),
         (Effect.fireChange, { s with statusBar := false, pathBeingIndexed := none, lastRepo := some ⟨p, b⟩ })]⟩) ∧
    (onDone w s).st.pathBeingIndexed = none ∧
    (∀ s0 : St, s0.statusBar = true → 1 ≤ fireStatusCount (onDone w s0).tr) := by
  have hguard : doneGuard s = some p := by
    rcases hmatch with hnone | ⟨lr, hsome, hpath⟩
    · simp [doneGuard, hidx, hnone]
    · simp [doneGuard, hidx, hsome, hpath]
  have hg : getService w { s with statusBar := false } =
      ⟨Except.ok (), { s with statusBar := false }, []⟩ := getService_some w hsvc
  have hmain : onDone w s =
      ⟨(), { s with statusBar := false, pathBeingIndexed := none, lastRepo := some ⟨p, b⟩ },
        [(Effect.fireStatus, { s with statusBar := false, pathBeingIndexed := none }),
         (Effect.request (Req.load p), { s with statusBar := false, pathBeingIndexed := none }),
         (Effect.fireStatus, { s with statusBar := false, pathBeingIndexed := none, lastRepo := some ⟨p, b⟩ }),
         (Effect.fireChange, { s with statusBar := false, pathBeingIndexed := none, lastRepo := some ⟨p, b⟩ })]⟩ := by
    simp [onDone, hbar, hguard, hg, hload]
  refine ⟨hmain, by rw [hmain], ?_⟩
  intro s0 h0
  have h0x : ¬ (s0.statusBar = false) := by simp [h0]
  simp only [onDone, if_neg h0x]
  repeat' split
  all_goals simp

/-- Witness for C2 from the indexing state on an all-ok worker. -/
theorem done_reloads_and_fires_witness :
    (onDone okWorker indexingState =
      ⟨(), { indexingState with statusBar := false, pathBeingIndexed := none, lastRepo := some ⟨"/repo", true⟩ },
        [(Effect.fireStatus, { indexingState with statusBar := false, pathBeingIndexed := none }),
         (Effect.request (Req.load ("/repo")), { indexingState with statusBar := false, pathBeingIndexed := none }),
         (Effect.fireStatus, { indexingState with statusBar := false, pathBeingIndexed := none, lastRepo := some ⟨"/repo", true⟩ }),
         (Effect.fireChange, { indexingState with statusBar := false, pathBeingIndexed := none, lastRepo := some ⟨"/repo", true⟩ })]⟩) ∧
    (onDone okWorker indexingState).st.pathBeingIndexed = none :=
  ⟨(done_reloads_and_fires okWorker indexingState ("/repo") true rfl rfl rfl
      (Or.inr ⟨⟨"/repo", false⟩, rfl, rfl⟩) rfl).1,
   (done_reloads_and_fires okWorker indexingState ("/repo") true rfl rfl rfl
      (Or.inr ⟨⟨"/repo", false⟩, rfl, rfl⟩) rfl).2.1⟩

/-- Claim C9: in the Done handler of a bound session, every change event in
the trace happens at a state whose pathBeingIndexed is already cleared, so
no observer of the change event for a completed index sees both a ready
loadResult and an outstanding IndexingState. -/
theorem done_clears_indexing_before_change (w : Worker) (s : St)
    (hsvc : s.service = some (Except.ok ())) :
    changeEventSeesNoIndexing (onDone w s).tr := by
  have hg : getService w { s with statusBar := false } =
      ⟨Except.ok (), { s with statusBar := false }, []⟩ := getService_some w hsvc
  by_cases hbar : s.statusBar = false
  · simp [changeEventSeesNoIndexing, onDone, hbar]
  · cases hdg : doneGuard s with
    | none => simp [changeEventSeesNoIndexing, onDone, hbar, hdg]
    | some p =>
      cases hl : w.loadResp p with
      | error e => simp [changeEventSeesNoIndexing, onDone, hbar, hdg, hg, hl]
      | ok b => simp [changeEventSeesNoIndexing, onDone, hbar, hdg, hg, hl]

/-- Witness for C9 on the concrete indexing state. -/
theorem done_clears_indexing_before_change_witness :
    changeEventSeesNoIndexing (onDone okWorker indexingState).tr :=
  done_clears_indexing_before_change okWorker indexingState rfl

end LocalEmbeddings
